import Mathlib

/-!
Verification of the claude-session-picker program (src/claude-session-picker.py).

The Python source is shallowly embedded: JSONL records become a `Record` inductive
data model, text is Lean `String` (a structure holding a `List Char`), and the
Python string operations used by the source (`len`, `strip`, `startswith`, `lower`,
`in`, slicing, `join`, `split`) are modelled by executable `py*` helpers below that
operate on the underlying character list.  Stateful code (cache dictionaries,
session objects) is modelled by explicit state passing; the external `claude`
subprocess is modelled by an explicit `ProcOutcome` input.
-/

set_option maxHeartbeats 1000000

/-! ## Python string primitives: executable models of the `str` operations used by the source -/

/-- Python `len(s)`: number of characters of the string. -/
def pyLen (s : String) : Nat := s.data.length

/-- Python string concatenation `a + b`. -/
def pyCat (a b : String) : String := String.mk (a.data ++ b.data)

/-- Python slicing `s[:n]`. -/
def pyTake (s : String) (n : Nat) : String := String.mk (s.data.take n)

/-- Python whitespace class (the characters stripped by `str.strip` and matched
by the regex class `\s`, restricted to ASCII). -/
def isPySpace (c : Char) : Bool :=
  c = ' ' || c = '\t' || c = '\n' || c = '\r' || c = '\x0b' || c = '\x0c'

/-- Python `s.strip()`: drop whitespace from both ends. -/
def pyStrip (s : String) : String :=
  String.mk (((s.data.dropWhile isPySpace).reverse.dropWhile isPySpace).reverse)

/-- Python `s.startswith(pre)`. -/
def pyStartsWith (s pre : String) : Bool := pre.data.isPrefixOf s.data

/-- Python `s.lower()` (ASCII case folding). -/
def pyLower (s : String) : String := String.mk (s.data.map Char.toLower)

/-- Contiguous-substring containment on character lists (Python `sub in hay`). -/
def listContainsSub (sub : List Char) : List Char → Bool
  | [] => sub.isEmpty
  | x :: xs => sub.isPrefixOf (x :: xs) || listContainsSub sub xs

/-- Python `sub in s` for strings. -/
def pyIn (sub s : String) : Bool := listContainsSub sub.data s.data

/-- Python `sep.join(parts)`. -/
def pyJoin (sep : String) : List String → String
  | [] => ""
  | [x] => x
  | x :: y :: xs => pyCat x (pyCat sep (pyJoin sep (y :: xs)))

/-- Python `s.split(c)` at the character-list level: split on every occurrence of
`c`, keeping empty pieces (`"a--b".split("-") == ["a", "", "b"]`). -/
def splitChar (c : Char) : List Char → List (List Char)
  | [] => [[]]
  | x :: xs =>
    if x = c then [] :: splitChar c xs
    else (x :: (splitChar c xs).headI) :: (splitChar c xs).tail

/-- Python `s.split(c)` for a one-character separator. -/
def pySplit (c : Char) (s : String) : List String :=
  (splitChar c s.data).map String.mk

/-! ## Data model: one parsed JSONL record -/

/-- One element of a list-valued `message.content`: a text block, a tool
invocation (`name` + an `input` dict of string-valued fields, modelled as an
association list), or an unrecognized shape. -/
inductive ContentItem where
  | text (text : String)
  | tool_use (name : String) (input : List (String × String))
  | other
  deriving DecidableEq

/-- The `message.content` field of a record. -/
inductive Content where
  | str (s : String)
  | items (l : List ContentItem)
  | other
  deriving DecidableEq

/-- One parsed line of a `.jsonl` session file. -/
structure Record where
  type : String
  isSidechain : Bool
  content : Content
  summary : String
  deriving DecidableEq

/-! ## Transcript parser (`SessionFile.load_conversations`, lines 85-134) -/

/-- The serialized tool-result marker checked at line 131:
`'[{"tool_use_id"'` (Python literal). -/
def toolResultMarker : String := "[\x7b\"tool_use_id\""

/-- Lines 125-132: the loop collecting `user_messages` — user-typed,
non-sidechain records whose string content does not start (after `strip`) with
the tool-result marker.  The identical loop also appears at lines 149-156 in
`extract_content_for_summary`. -/
def user_messages (conversations : List Record) : List Record :=
  conversations.foldl
    (fun user_msgs conv =>
      if conv.type == "user" && !conv.isSidechain then
        match conv.content with
        | Content.str content =>
          if !pyStartsWith (pyStrip content) toolResultMarker then
            user_msgs ++ [conv]
          else user_msgs
        | _ => user_msgs
      else user_msgs)
    []

/-- Line 133: `self.message_count = len(user_messages)`. -/
def message_count (conversations : List Record) : Nat :=
  (user_messages conversations).length

/-- Hex-digit class of the UUID regex `[a-f0-9]` (lines 119). -/
def isUuidHex (c : Char) : Bool := ('a' ≤ c && c ≤ 'f') || c.isDigit

/-- Consume exactly `n` characters of the `[a-f0-9]` class. -/
def hexRun : Nat → List Char → Option (List Char)
  | 0, l => some l
  | _ + 1, [] => none
  | n + 1, c :: rest => if isUuidHex c then hexRun n rest else none

/-- Consume one dash. -/
def dashRun : List Char → Option (List Char)
  | '-' :: rest => some rest
  | _ => none

/-- Does the UUID pattern `[a-f0-9]{8}-[a-f0-9]{4}-[a-f0-9]{4}-[a-f0-9]{4}-[a-f0-9]{12}`
match at the front of the list? -/
def uuidMatchAt (l : List Char) : Bool :=
  (do
    let r ← hexRun 8 l
    let r ← dashRun r
    let r ← hexRun 4 r
    let r ← dashRun r
    let r ← hexRun 4 r
    let r ← dashRun r
    let r ← hexRun 4 r
    let r ← dashRun r
    let _ ← hexRun 12 r
    pure ()).isSome

/-- `re.search` for the UUID pattern (line 119): leftmost 36-character match. -/
def findUuid : List Char → Option String
  | [] => none
  | l@(_ :: rest) =>
    if uuidMatchAt l then some (String.mk (l.take 36)) else findUuid rest

/-- The continuation marker phrase of line 115. -/
def continuationMarker : String := "This session is being continued from"

/-- Lines 110-122: the first user-typed record whose string content contains the
continuation marker (the loop breaks at the first hit). -/
def findContinuationConv (conversations : List Record) : Option Record :=
  conversations.find? fun conv =>
    conv.type == "user" &&
      (match conv.content with
       | Content.str s => pyIn continuationMarker s
       | _ => false)

/-- A `SessionFile` object (lines 69-83).  `fileRecords` models the parsed
lines of the underlying `.jsonl` file — the list of records which
`load_conversations` produces by reading the file (malformed lines are already
dropped, mirroring the `json.JSONDecodeError: continue` at line 96).
`modified_time` (a float in Python, compared only for equality) is modelled as
an integer. -/
structure Session where
  file_path : String
  modified_time : Int
  size : Nat
  project_dir : String
  session_id : String
  fileRecords : List Record
  conversations : List Record
  summary : String
  message_count : Nat
  is_continuation : Bool
  continued_from_session : Option String
  deriving DecidableEq

/-- `SessionFile.load_conversations` (lines 85-134): store the parsed records,
derive the continuation flag (any sidechain record, else the first user record
containing the continuation marker, from which a UUID is extracted when
present), and count the primary user messages. -/
def load_conversations (s : Session) : Session :=
  let conversations := s.fileRecords
  -- lines 104-106: sidechain records force is_continuation
  let cont1 : Bool :=
    if (conversations.filter (fun conv => conv.isSidechain)).isEmpty then
      s.is_continuation
    else true
  -- lines 109-122: continuation marker in a user message (first hit, break)
  let contPair : Bool × Option String :=
    if !cont1 then
      match findContinuationConv conversations with
      | some conv =>
        (true,
          match conv.content with
          | Content.str c =>
            (match findUuid c.data with
             | some u => some u
             | none => s.continued_from_session)
          | _ => s.continued_from_session)
      | none => (cont1, s.continued_from_session)
    else (cont1, s.continued_from_session)
  { s with
    conversations := conversations
    is_continuation := contPair.1
    continued_from_session := contPair.2
    message_count := (user_messages conversations).length }

/-! ## Project/session cache (lines 329-387) -/

/-- One value of the per-project cache document (see `cache_summary`,
lines 375-386). -/
structure CacheEntry where
  summary : String
  modified_time : Int
  session_id : String
  project_dir : String
  message_count : Nat
  is_continuation : Bool
  continued_from_session : Option String
  deriving DecidableEq

/-- A Python dict keyed by file path, modelled as an association list with
unique keys maintained by `setKey`. -/
def Cache : Type := List (String × CacheEntry)

/-- Dict read `cache[k]` / `k in cache`. -/
def lookupKey : List (String × CacheEntry) → String → Option CacheEntry
  | [], _ => none
  | (k', v) :: rest, k => if k' = k then some v else lookupKey rest k

/-- Dict write `cache[k] = v`: replace the value at an existing key, else
append. -/
def setKey : List (String × CacheEntry) → String → CacheEntry → List (String × CacheEntry)
  | [], k, v => [(k, v)]
  | (k', v') :: rest, k, v =>
    if k' = k then (k, v) :: rest else (k', v') :: setKey rest k v

/-- `get_cached_summary` (lines 360-372): return the cached summary only when
the key is present and the stored fingerprint equals the session file's live
modified time; otherwise `None`.  (On a hit the Python code also restores
`message_count`, `is_continuation` and `continued_from_session` into the
session object — a side effect on the session that does not affect the returned
value and is not needed by the claims.) -/
def get_cached_summary (session : Session) (cache : List (String × CacheEntry)) :
    Option String :=
  match lookupKey cache session.file_path with
  | some cached_data =>
    if cached_data.modified_time = session.modified_time then
      some cached_data.summary
    else none
  | none => none

/-! ## Excerpt selector (`SessionFile.extract_content_for_summary`, lines 136-275) -/

/-- Line 65: `MAX_CONTENT_LENGTH = 20000`. -/
def MAX_CONTENT_LENGTH : Nat := 20000

/-- The stoplist of generic terms at line 144. -/
def genericTerms : List String := ["config", "path", "picker", "session", "claude code"]

/-- Line 144: a summary is kept only if
`len(s) > 50 and not any(generic in s.lower() for generic in [...])`. -/
def is_good_summary (s : String) : Bool :=
  decide (50 < pyLen s) && !(genericTerms.any fun g => pyIn g (pyLower s))

/-- Lines 140-144: the `summary`-typed records with a truthy `summary` field,
filtered down to the descriptive ones. -/
def good_summaries (conversations : List Record) : List String :=
  let summaries :=
    (conversations.filter fun conv => conv.type == "summary" && conv.summary != "").map
      fun conv => conv.summary
  summaries.filter is_good_summary

/-- Lines 158-169: pick all primary user messages when there are at most 6,
else the first 2, the last 2, and `user_messages[mid_point - 1 : mid_point + 1]`
(two around the midpoint) when `mid_point > 1`. -/
def priority_user_messages (user_msgs : List Record) : List Record :=
  let total_user_msgs := user_msgs.length
  if total_user_msgs ≤ 6 then user_msgs
  else
    let first_two := user_msgs.take 2
    let last_two := user_msgs.drop (total_user_msgs - 2)
    let mid_point := total_user_msgs / 2
    let middle_two :=
      if 1 < mid_point then (user_msgs.drop (mid_point - 1)).take 2 else []
    first_two ++ middle_two ++ last_two

/-- Lines 176-186: from each selected message with nonblank string content of
stripped length over 10, take the first 200 characters of the stripped text. -/
def user_requests (priority : List Record) : List String :=
  priority.foldl
    (fun acc conv =>
      match conv.content with
      | Content.str content =>
        if pyStrip content != "" then
          if 10 < pyLen (pyStrip content) then acc ++ [pyTake (pyStrip content) 200]
          else acc
        else acc
      | _ => acc)
    []

/-- The action vocabulary of line 207. -/
def actionWords : List String :=
  ["create", "update", "fix", "add", "remove", "install", "configure", "debug",
   "implement"]

/-- Python `str(tool_input)` for a dict with string values:
`{'key': 'value', ...}` (used in the fallback at line 250). -/
def pyDictRepr (input : List (String × String)) : String :=
  pyCat "\x7b"
    (pyCat
      (pyJoin ", "
        (input.map fun kv =>
          pyCat "\x27" (pyCat kv.1 (pyCat "\x27: \x27" (pyCat kv.2 "\x27")))))
      "\x7d")

/-- Lines 214-245: the `desc_parts` elif-chain rendering one tool invocation. -/
def tool_desc_parts (tool_name : String) (tool_input : List (String × String)) :
    List String :=
  if tool_name == "Read" && (tool_input.lookup "file_path").isSome then
    [pyCat "read: " ((tool_input.lookup "file_path").getD "")]
  else if (tool_name == "Edit" || tool_name == "MultiEdit")
      && (tool_input.lookup "file_path").isSome then
    [pyCat "edited: " ((tool_input.lookup "file_path").getD "")]
  else if tool_name == "Write" && (tool_input.lookup "file_path").isSome then
    [pyCat "wrote: " ((tool_input.lookup "file_path").getD "")]
  else if tool_name == "Bash" && (tool_input.lookup "command").isSome then
    [pyCat "ran: " (pyTake ((tool_input.lookup "command").getD "") 70)]
  else if (tool_name == "LS" || tool_name == "Glob" || tool_name == "Grep")
      && (tool_input.lookup "path").isSome then
    [pyCat "searched: " ((tool_input.lookup "path").getD "")]
  else if tool_name == "Grep" && (tool_input.lookup "pattern").isSome then
    [pyCat "grepped: " ((tool_input.lookup "pattern").getD "")]
  else if (tool_name == "NotebookRead" || tool_name == "NotebookEdit")
      && (tool_input.lookup "notebook_path").isSome then
    [pyCat "notebook: " ((tool_input.lookup "notebook_path").getD "")]
  else if tool_name == "TodoRead" || tool_name == "TodoWrite" then
    ["managed todos"]
  else if (tool_name == "WebFetch" || tool_name == "WebSearch")
      && (tool_input.lookup "url").isSome then
    [pyCat "web: " ((tool_input.lookup "url").getD "")]
  else if tool_name == "WebSearch" && (tool_input.lookup "query").isSome then
    [pyCat "searched: " ((tool_input.lookup "query").getD "")]
  else if (tool_input.lookup "description").isSome then
    [pyTake ((tool_input.lookup "description").getD "") 70]
  else if (tool_input.lookup "command").isSome then
    [pyTake ((tool_input.lookup "command").getD "") 70]
  else []

/-- Lines 194-250: one pass over the non-sidechain records collecting
`assistant_actions` (first component) and `tool_uses` (second component). -/
def assistant_scan (priority_conversations : List Record) :
    List String × List String :=
  priority_conversations.foldl
    (fun acc conv =>
      if conv.type == "assistant" && !conv.isSidechain then
        match conv.content with
        | Content.items items =>
          items.foldl
            (fun acc2 item =>
              match item with
              | ContentItem.text t =>
                if actionWords.any (fun w => pyIn w (pyLower t)) then
                  (acc2.1 ++ [pyTake t 150], acc2.2)
                else acc2
              | ContentItem.tool_use tool_name tool_input =>
                if tool_name != "" && !tool_input.isEmpty then
                  match tool_desc_parts tool_name tool_input with
                  | d :: _ =>
                    (acc2.1,
                      acc2.2 ++
                        [pyCat "Tool \x27" (pyCat tool_name (pyCat "\x27: " d))])
                  | [] =>
                    (acc2.1,
                      acc2.2 ++
                        [pyCat "Tool \x27"
                          (pyCat tool_name
                            (pyCat "\x27: " (pyTake (pyDictRepr tool_input) 70)))])
                else acc2
              | ContentItem.other => acc2)
            acc
        | _ => acc
      else acc)
    ([], [])

/-- Lines 262-269: basic extraction from the first 5 records when no smart
content was found. -/
def fallback_parts (conversations : List Record) : List String :=
  (conversations.take 5).foldl
    (fun acc conv =>
      if conv.type == "user" && !conv.isSidechain then
        match conv.content with
        | Content.str content =>
          if pyStrip content != "" then
            if !pyStartsWith (pyStrip content) toolResultMarker then
              acc ++ [pyCat "User: " (pyTake content 100)]
            else acc
          else acc
        | _ => acc
      else acc)
    []

/-- `SessionFile.extract_content_for_summary` (lines 136-275).  (The
`if user_requests:` / `if assistant_actions:` / `if tool_uses:` guards at
lines 254-259 are dropped: extending with the mapped prefix of an empty list
adds nothing, so the guarded and unguarded forms coincide.) -/
def extract_content_for_summary (conversations : List Record) : String :=
  let gs := good_summaries conversations
  if !gs.isEmpty then pyJoin " | " (gs.take 3)
  else
    let user_msgs := user_messages conversations
    let priority := priority_user_messages user_msgs
    let user_reqs := user_requests priority
    let user_context := pyJoin " | " user_reqs
    if 200 < pyLen user_context then user_context
    else
      let priority_conversations := conversations.filter fun conv => !conv.isSidechain
      let scan := assistant_scan priority_conversations
      let summary_parts :=
        (user_reqs.take 3).map (fun req => pyCat "User: " req)
          ++ (scan.1.take 2).map (fun action => pyCat "Action: " action)
          ++ (scan.2.take 2).map (fun tool => pyCat "Tool: " tool)
      let summary_parts :=
        if summary_parts.isEmpty then fallback_parts conversations else summary_parts
      let result := pyJoin " | " summary_parts
      let result :=
        if MAX_CONTENT_LENGTH < pyLen result then
          pyCat (pyTake result MAX_CONTENT_LENGTH) "..."
        else result
      if result == "" then "Empty conversation" else result

/-- `cache_summary` (lines 375-386): overwrite the cache entry for the
session's file path with freshly derived metadata. -/
def cache_summary (session : Session) (summary : String)
    (cache : List (String × CacheEntry)) : List (String × CacheEntry) :=
  setKey cache session.file_path
    { summary := summary
      modified_time := session.modified_time
      session_id := session.session_id
      project_dir := session.project_dir
      message_count := session.message_count
      is_continuation := session.is_continuation
      continued_from_session := session.continued_from_session }

/-! ## Summarizer adapter (`summarize_with_claude`, lines 389-443) -/

/-- Outcome of the `subprocess.run(['claude', '-p', prompt], ...)` call. -/
inductive ProcOutcome where
  | completed (returncode : Int) (stdout : String) (stderr : String)
  | timeoutExpired
  | fileNotFound
  | otherError (msg : String)
  deriving DecidableEq

/-- `re.search(r'\d+\.', s)` as a Boolean: some digit immediately followed by a
dot (line 416). -/
def containsNumDot : List Char → Bool
  | [] => false
  | [_] => false
  | a :: b :: rest => (a.isDigit && b = '.') || containsNumDot (b :: rest)

/-- Does `\d+\.\s+` match at the front of the list (one or more digits, a dot,
one or more whitespace characters)? -/
def numberedAt (l : List Char) : Bool :=
  let digits := l.takeWhile Char.isDigit
  !digits.isEmpty &&
    (match l.dropWhile Char.isDigit with
     | '.' :: r => !(r.takeWhile isPySpace).isEmpty
     | _ => false)

/-- `re.search(r'(\d+\.\s+.*)', s, re.DOTALL)` (lines 418-420): the suffix of
the string starting at the leftmost position where `\d+\.\s+` matches (with
DOTALL, `.*` greedily captures everything to the end). -/
def findNumberedStart : List Char → Option (List Char)
  | [] => none
  | l@(_ :: rest) => if numberedAt l then some l else findNumberedStart rest

/-- `re.sub(r"^\s*[\*\-]\s*", "", s)` (line 423): strip one leading bullet
glyph (and surrounding whitespace) when present; otherwise leave the string
unchanged.  The pattern is anchored, so at most one replacement happens. -/
def stripLeadingBullet (l : List Char) : List Char :=
  match l.dropWhile isPySpace with
  | c :: rest => if c = '*' || c = '-' then rest.dropWhile isPySpace else l
  | [] => l

/-- Scan for the closing `**` of a bold span: the shortest newline-free prefix
followed by `**`.  Returns the content before the closing marker and the
remainder after it. -/
def findClose2 : List Char → Option (List Char × List Char)
  | [] => none
  | c :: rest =>
    if c = '*' ∧ rest.head? = some '*' then some ([], rest.tail)
    else if c = '\n' then none
    else (findClose2 rest).map fun p => (c :: p.1, p.2)

def findClose2_length :
    ∀ l a b, findClose2 l = some (a, b) → b.length < l.length := by
  intro l
  induction l with
  | nil => intro a b h; simp [findClose2] at h
  | cons c rest ih =>
    intro a b h
    simp only [findClose2] at h
    split at h
    · rename_i hc
      obtain ⟨-, hh⟩ := hc
      cases rest with
      | nil => simp at hh
      | cons r rs =>
        simp only [Option.some.injEq, Prod.mk.injEq] at h
        obtain ⟨-, h2⟩ := h
        subst h2
        simp only [List.tail_cons, List.length_cons]
        omega
    · split at h
      · simp at h
      · rw [Option.map_eq_some'] at h
        obtain ⟨p, hp, hfp⟩ := h
        have hlt := ih p.1 p.2 (by rw [hp])
        have hb : p.2 = b := congrArg Prod.snd hfp
        subst hb
        simp only [List.length_cons]
        omega

/-- `re.sub(r'\*\*(.*?)\*\*', r'\1', s)` (line 426): remove each matched pair
of `**` markers, keeping the (newline-free, lazily matched) content. -/
def removeBold : List Char → List Char
  | '*' :: '*' :: rest =>
    match h : findClose2 rest with
    | some (content, after) => content ++ removeBold after
    | none => '*' :: '*' :: removeBold rest
  | c :: rest => c :: removeBold rest
  | [] => []
termination_by l => l.length
decreasing_by
  all_goals simp only [List.length_cons]
  · have := findClose2_length _ _ _ h
    omega
  · omega
  · omega

/-- Scan for the closing `*` of an italic span (shortest newline-free prefix
followed by `*`). -/
def findClose1 : List Char → Option (List Char × List Char)
  | [] => none
  | c :: rest =>
    if c = '*' then some ([], rest)
    else if c = '\n' then none
    else (findClose1 rest).map fun p => (c :: p.1, p.2)

def findClose1_length :
    ∀ l a b, findClose1 l = some (a, b) → b.length < l.length := by
  intro l
  induction l with
  | nil => intro a b h; simp [findClose1] at h
  | cons c rest ih =>
    intro a b h
    simp only [findClose1] at h
    split at h
    · simp only [Option.some.injEq, Prod.mk.injEq] at h
      obtain ⟨-, h2⟩ := h
      subst h2
      simp
    · split at h
      · simp at h
      · rw [Option.map_eq_some'] at h
        obtain ⟨p, hp, hfp⟩ := h
        have hlt := ih p.1 p.2 (by rw [hp])
        have hb : p.2 = b := congrArg Prod.snd hfp
        subst hb
        simp only [List.length_cons]
        omega

/-- `re.sub(r'\*(.*?)\*', r'\1', s)` (line 427): remove each matched pair of
single `*` markers. -/
def removeItalic : List Char → List Char
  | [] => []
  | c :: rest =>
    if c = '*' then
      match h : findClose1 rest with
      | some (content, after) => content ++ removeItalic after
      | none => '*' :: removeItalic rest
    else c :: removeItalic rest
termination_by l => l.length
decreasing_by
  all_goals simp only [List.length_cons]
  · have := findClose1_length _ _ _ h
    omega
  · omega
  · omega

/-- Match `\s*(\d+\.)\s+` at the front of the list: optional whitespace, one or
more digits, a dot, then at least one whitespace character.  Returns the
captured group (`digits + '.'`) and the remainder after the match. -/
def matchNumbered (l : List Char) : Option (List Char × List Char) :=
  let rest1 := l.dropWhile isPySpace
  let digits := rest1.takeWhile Char.isDigit
  let rest2 := rest1.dropWhile Char.isDigit
  if digits.isEmpty then none
  else
    match rest2 with
    | '.' :: rest3 =>
      if (rest3.takeWhile isPySpace).isEmpty then none
      else some (digits ++ ['.'], rest3.dropWhile isPySpace)
    | _ => none

def matchNumbered_length {l g after : List Char}
    (h : matchNumbered l = some (g, after)) : after.length < l.length := by
  simp only [matchNumbered] at h
  split at h
  · simp at h
  · rename_i hdig
    split at h
    · rename_i rest3 heq
      split at h
      · simp at h
      · simp only [Option.some.injEq, Prod.mk.injEq] at h
        obtain ⟨-, h2⟩ := h
        subst h2
        have h1 : (l.dropWhile isPySpace).takeWhile Char.isDigit ++
            (l.dropWhile isPySpace).dropWhile Char.isDigit = l.dropWhile isPySpace :=
          List.takeWhile_append_dropWhile Char.isDigit (l.dropWhile isPySpace)
        have hlen1 : (l.dropWhile isPySpace).length ≤ l.length :=
          (List.dropWhile_sublist _).length_le
        have hlen2 : (rest3.dropWhile isPySpace).length ≤ rest3.length :=
          (List.dropWhile_sublist _).length_le
        have hne : ((l.dropWhile isPySpace).takeWhile Char.isDigit).length ≠ 0 := by
          intro hz
          exact hdig (List.isEmpty_iff.mpr (List.length_eq_zero.mp hz))
        have := congrArg List.length h1
        rw [heq] at this
        simp only [List.length_append, List.length_cons] at this
        omega
    · simp at h

/-- `re.sub(r'\s*(\d+\.)\s+', r'\n\1 ', s)` (line 430): put every numbered
item onto its own line. -/
def newlineNumbers : List Char → List Char
  | [] => []
  | c :: rest =>
    match h : matchNumbered (c :: rest) with
    | some (g, after) => '\n' :: (g ++ ' ' :: newlineNumbers after)
    | none => c :: newlineNumbers rest
termination_by l => l.length
decreasing_by
  · exact matchNumbered_length h
  · simp only [List.length_cons]; omega

/-- `re.sub(r" {2,}", " ", s)` (line 433): collapse runs of two or more spaces
to a single space. -/
def collapseSpaces : List Char → List Char
  | [] => []
  | ' ' :: ' ' :: rest => collapseSpaces (' ' :: rest)
  | c :: rest => c :: collapseSpaces rest
termination_by l => l.length
decreasing_by
  · simp only [List.length_cons]; omega
  · simp only [List.length_cons]; omega

/-- Lines 413-434: post-processing of the external process's stdout on a zero
exit status — strip, cut any preamble before the first numbered bullet, strip a
leading bullet glyph, remove bold/italic markup, put each numbered item on its
own line, collapse space runs, strip, and truncate to 400 characters (with a
fixed placeholder when the cleaned text is empty). -/
def success_branch (stdout : String) : String :=
  let summary := pyStrip stdout
  let summary :=
    if containsNumDot summary.data then
      match findNumberedStart summary.data with
      | some tail => String.mk tail
      | none => summary
    else summary
  let summary := String.mk (stripLeadingBullet summary.data)
  let summary := String.mk (removeBold summary.data)
  let summary := String.mk (removeItalic summary.data)
  let summary := String.mk ((newlineNumbers summary.data).dropWhile (fun c => c = '\n'))
  let summary := pyStrip (String.mk (collapseSpaces summary.data))
  if summary != "" then pyTake summary 400
  else "Unable to generate summary (empty response)"

/-- `summarize_with_claude` (lines 389-443).  The second component records
whether the `subprocess.run` call at line 407 was reached.  Every branch
returns a string — no failure is raised to the caller (in the source each
except-clause returns a placeholder). -/
def summarize_with_claude (content : String) (run : ProcOutcome) : String × Bool :=
  if content == "" || pyStrip content == "Empty conversation" then
    ("Empty or unreadable conversation", false)
  else
    match run with
    | ProcOutcome.completed returncode stdout stderr =>
      if returncode = 0 then (success_branch stdout, true)
      else (pyCat "CLI error: " (pyTake stderr 50), true)
    | ProcOutcome.timeoutExpired => ("Summary generation timed out", true)
    | ProcOutcome.fileNotFound => ("Claude CLI not found - install claude-cli", true)
    | ProcOutcome.otherError msg => (pyCat "Error: " (pyTake msg 50), true)

/-! ## Project path decoding (`decode_project_path`, lines 278-294) -/

/-- `decode_project_path` (lines 278-294): names starting with `-Users-` are
split on `-`, the leading empty piece is dropped, and the pieces are rejoined
with `/` under a leading `/`; any other name is returned unchanged. -/
def decode_project_path (encoded_name : String) : String :=
  if pyStartsWith encoded_name "-Users-" then
    let parts := pySplit '-' encoded_name
    let parts := if parts.head? = some "" then parts.tail else parts
    pyCat "/" (pyJoin "/" parts)
  else encoded_name

/-- Modelled from the spec: the encoding of an original absolute filesystem
path into a project-directory name is performed by the external tool that
creates the project directories, not by this repository (the source only
contains the decoder); per the spec it is the path with "all path separators
replaced by a single joining character" — every `/` becomes `-`. -/
def encode_project_path (path : String) : String :=
  String.mk (path.data.map fun c => if c = '/' then '-' else c)

/-- An absolute path assembled from its segments: `/` + `"/".join(segments)`. -/
def pathOfSegments (segments : List String) : String :=
  pyCat "/" (pyJoin "/" segments)

/-! ## Recache (`recache_sessions`, lines 618-665) -/

/-- Lines 655-661: process one selected session — reload its conversations,
re-extract, re-summarize, and overwrite its cache entry. -/
def process_recache (summarizer : String → String)
    (cache : List (String × CacheEntry)) (session : Session) :
    List (String × CacheEntry) :=
  let session := load_conversations session
  let content := extract_content_for_summary session.conversations
  let summary := summarizer content
  cache_summary session summary cache

/-- The cache entry written for a session during a recache pass: derived from
the re-parsed file contents and the fresh summary only — independent of any
previously cached data. -/
def fresh_entry (summarizer : String → String) (session : Session) : CacheEntry :=
  let s := load_conversations session
  { summary := summarizer (extract_content_for_summary s.conversations)
    modified_time := s.modified_time
    session_id := s.session_id
    project_dir := s.project_dir
    message_count := s.message_count
    is_continuation := s.is_continuation
    continued_from_session := s.continued_from_session }

/-- Lines 640-642: `indices = [int(x.strip()) - 1 for x in choice.split(',')]`
followed by `sessions_to_recache = [sessions[i] for i in indices]` — the
user's 1-based choices converted to the selected sessions (the source loops
back to the prompt unless every index is in range, which the theorems assume
as a hypothesis). -/
def sessions_to_recache (sessions : List Session) (choices : List Nat) :
    List Session :=
  (choices.map fun x => x - 1).filterMap fun i => sessions[i]?

/-- `recache_sessions` (lines 618-665) restricted to a comma-separated list of
1-based indices: re-process exactly the selected sessions, threading the cache
through `cache_summary`. -/
def recache_sessions (summarizer : String → String) (sessions : List Session)
    (choices : List Nat) (cache : List (String × CacheEntry)) :
    List (String × CacheEntry) :=
  (sessions_to_recache sessions choices).foldl (process_recache summarizer) cache

/-- A session whose file now reports modified time 7. -/
def sessionW : Session :=
  { file_path := "/p/a.jsonl", modified_time := 7, size := 0,
    project_dir := "-Users-u-p", session_id := "a", fileRecords := [],
    conversations := [], summary := "", message_count := 0,
    is_continuation := false, continued_from_session := none }

/-- A cache entry written when the same file had modified time 5. -/
def entryW : CacheEntry :=
  { summary := "old summary", modified_time := 5, session_id := "a",
    project_dir := "-Users-u-p", message_count := 3, is_continuation := false,
    continued_from_session := none }

/-! ## Claim-side predicates and concrete inputs used by witnesses -/

/-- The claim's counting rule, written from its words: a record is counted
exactly when its kind is `user`, its `isSidechain` flag is false, and its raw
text content does not begin (after stripping) with the serialized tool-result
marker (a record with non-string content has no text content and is not
counted). -/
def claimPrimaryUser (conv : Record) : Bool :=
  (conv.type == "user" && !conv.isSidechain) &&
    (match conv.content with
     | Content.str s => !pyStartsWith (pyStrip s) toolResultMarker
     | _ => false)

/-- A genuine user request. -/
def recUserW : Record :=
  { type := "user", isSidechain := false,
    content := Content.str "please fix the bug", summary := "" }

/-- A sidechain user record (injected from a continued session). -/
def recSideW : Record :=
  { type := "user", isSidechain := true,
    content := Content.str "carried over text", summary := "" }

/-- A tool-result echo record. -/
def recToolW : Record :=
  { type := "user", isSidechain := false,
    content := Content.str "[\x7b\"tool_use_id\": \"t1\"\x7d]", summary := "" }

/-- A descriptive embedded summary: 60 characters, no stoplist term. -/
def goodSumW : String :=
  "xxxxxxxxxxxxxxxxxxxxxxxxxxxxxxxxxxxxxxxxxxxxxxxxxxxxxxxxxxxx"

/-- A `summary`-kind record carrying `goodSumW`. -/
def recSumW : Record :=
  { type := "summary", isSidechain := false, content := Content.other,
    summary := goodSumW }

/-- Seven primary user records and no summary records. -/
def convs7W : List Record :=
  [recUserW, recUserW, recUserW, recUserW, recUserW, recUserW, recUserW]

/-- A 20,001-character summary text containing no stoplist term. -/
def bigSummaryS : String := String.mk (List.replicate 20001 'x')

/-- A `summary`-kind record whose embedded summary exceeds the configured
maximum length. -/
def bigSummaryRec : Record :=
  { type := "summary", isSidechain := false, content := Content.other,
    summary := bigSummaryS }

/-- Character-level intercalation with separator `sep`. -/
def joinChars (sep : List Char) : List (List Char) → List Char
  | [] => []
  | [l] => l
  | l :: l2 :: ls => l ++ (sep ++ joinChars sep (l2 :: ls))

/-- Two sessions with distinct file paths. -/
def sessionR1 : Session :=
  { file_path := "p1", modified_time := 1, size := 0, project_dir := "d",
    session_id := "s1", fileRecords := [recUserW], conversations := [],
    summary := "", message_count := 0, is_continuation := false,
    continued_from_session := none }

def sessionR2 : Session :=
  { file_path := "p2", modified_time := 2, size := 0, project_dir := "d",
    session_id := "s2", fileRecords := [recUserW], conversations := [],
    summary := "", message_count := 0, is_continuation := false,
    continued_from_session := none }

/-- A prior cache holding entries for both sessions. -/
def cacheR : List (String × CacheEntry) := [("p1", entryW), ("p2", entryW)]

/-- Stand-in summarizer. -/
def idSummarizer : String → String := fun s => s

/-! ## Lemmas about the string primitives -/

theorem data_pyCat (a b : String) : (pyCat a b).data = a.data ++ b.data := rfl

theorem pyLen_pyCat (a b : String) : pyLen (pyCat a b) = pyLen a + pyLen b := by
  simp [pyLen, pyCat]

theorem pyLen_pyTake (s : String) (n : Nat) : pyLen (pyTake s n) = min n (pyLen s) := by
  simp [pyLen, pyTake]

theorem pyLen_pyTake_le (s : String) (n : Nat) : pyLen (pyTake s n) ≤ n := by
  simp [pyLen_pyTake]

theorem eq_empty_iff_pyLen_zero (s : String) : s = "" ↔ pyLen s = 0 := by
  constructor
  · intro h; subst h; rfl
  · intro h
    have hd : s.data = [] := List.length_eq_zero.mp h
    have : String.mk s.data = String.mk [] := by rw [hd]
    simpa using this

theorem ne_empty_of_pyLen_pos {s : String} (h : 0 < pyLen s) : s ≠ "" := by
  intro he
  rw [eq_empty_iff_pyLen_zero] at he
  omega

/-- Containment of a contiguous substring implies elementwise membership. -/
theorem mem_of_listContainsSub {sub hay : List Char}
    (h : listContainsSub sub hay = true) : ∀ c ∈ sub, c ∈ hay := by
  induction hay with
  | nil =>
    intro c hc
    simp only [listContainsSub, List.isEmpty_iff] at h
    subst h; simp at hc
  | cons x xs ih =>
    intro c hc
    simp only [listContainsSub, Bool.or_eq_true] at h
    rcases h with h | h
    · have hpre : sub <+: x :: xs := List.isPrefixOf_iff_prefix.mp h
      exact hpre.subset hc
    · exact List.mem_cons_of_mem x (ih h c hc)

/-- A string of characters all different from every character of `sub` cannot
contain `sub` (for nonempty `sub`). -/
theorem listContainsSub_replicate_eq_false {a : Char} (sub : List Char) (n : Nat)
    (hmem : a ∈ sub) (hne : a ≠ 'x') :
    listContainsSub sub (List.replicate n 'x') = false := by
  by_contra h
  have h' : listContainsSub sub (List.replicate n 'x') = true := by
    revert h; cases listContainsSub sub (List.replicate n 'x') <;> simp
  have := mem_of_listContainsSub h' a hmem
  exact hne (List.eq_of_mem_replicate this)

theorem pyLen_pyJoin_cons_ge (sep : String) (x : String) (xs : List String) :
    pyLen x ≤ pyLen (pyJoin sep (x :: xs)) := by
  cases xs with
  | nil => simp [pyJoin]
  | cons y ys => simp [pyJoin, pyLen_pyCat]

/-- Length bound for `join`: if every part has length at most `m`, the joined
string has length at most `n * (m + |sep|)` where `n` is the number of parts. -/
theorem pyLen_pyJoin_le (sep : String) (m : Nat) :
    ∀ l : List String, (∀ s ∈ l, pyLen s ≤ m) →
      pyLen (pyJoin sep l) ≤ l.length * (m + pyLen sep)
  | [], _ => by simp [pyJoin]; rfl
  | [x], h => by
    have := h x (by simp)
    simp only [pyJoin, List.length_cons, List.length_nil]
    omega
  | x :: y :: xs, h => by
    have hx : pyLen x ≤ m := h x (by simp)
    have hrest := pyLen_pyJoin_le sep m (y :: xs) (fun s hs => h s (by simp [hs]))
    simp only [pyJoin, pyLen_pyCat, List.length_cons] at *
    have : (y :: xs).length = xs.length + 1 := by simp
    nlinarith [hrest, hx]

/-- Two strings with different first characters are different. -/
theorem str_ne_of_head (s t : String) (h : s.data.head? ≠ t.data.head?) : s ≠ t :=
  fun e => h (by rw [e])

/-- A concatenation whose left part disagrees with the prefix of `t` is not `t`. -/
theorem pyCat_ne_of_take (a x t : String)
    (h : t.data.take a.data.length ≠ a.data) : pyCat a x ≠ t := by
  intro e
  have hd : a.data ++ x.data = t.data := congrArg String.data e
  have htk : (a.data ++ x.data).take a.data.length = a.data :=
    List.take_left a.data x.data
  rw [hd] at htk
  exact h htk

/-! ## C1: cache fingerprint invariant -/

/-- C1: `get_cached_summary` returns a hit if and only if the entry stored
under the session's file path has a fingerprint exactly equal to the session
file's live last-modified time; when the key is absent, or the stored
fingerprint differs from the live modified time (as after the file is
modified), it returns no value. -/
theorem get_cached_summary_hit_iff (session : Session)
    (cache : List (String × CacheEntry)) :
    ((get_cached_summary session cache).isSome ↔
      ∃ e, lookupKey cache session.file_path = some e ∧
        e.modified_time = session.modified_time) ∧
    (∀ e, lookupKey cache session.file_path = some e →
      e.modified_time ≠ session.modified_time →
      get_cached_summary session cache = none) ∧
    (lookupKey cache session.file_path = none →
      get_cached_summary session cache = none) := by
  refine ⟨?_, ?_, ?_⟩
  · unfold get_cached_summary
    cases h : lookupKey cache session.file_path with
    | none => simp
    | some e =>
      by_cases he : e.modified_time = session.modified_time <;> simp [he]
  · intro e he hne
    unfold get_cached_summary
    rw [he]
    simp [hne]
  · intro h
    unfold get_cached_summary
    rw [h]

/-! ## C1: cache fingerprint invariant -/

theorem get_cached_summary_hit_iff_witness :
    get_cached_summary sessionW [("/p/a.jsonl", entryW)] = none :=
  (get_cached_summary_hit_iff sessionW [("/p/a.jsonl", entryW)]).2.1 entryW rfl
    (by decide)

/-! ## C10: decoding leaves names outside `-Users-` unchanged -/

/-- C10: `decode_project_path` is the identity on every encoded name that does
not begin with `-Users-`; only names encoding paths under `/Users` are ever
reconstructed into an absolute filesystem path. -/
theorem decode_project_path_id_of_not_users (encoded_name : String)
    (h : pyStartsWith encoded_name "-Users-" = false) :
    decode_project_path encoded_name = encoded_name := by
  unfold decode_project_path
  simp [h]

theorem decode_project_path_id_witness :
    decode_project_path "home-alice-proj" = "home-alice-proj" :=
  decode_project_path_id_of_not_users "home-alice-proj" (by decide)

/-! ## C8: the sentinel excerpt skips the external process -/

/-- C8: when the excerpt is exactly the sentinel "Empty conversation" or is
blank, `summarize_with_claude` returns the fixed placeholder without reaching
the `subprocess.run` invocation (second component `false`), whatever the
external process would have done. -/
theorem summarize_skips_empty (content : String) (run : ProcOutcome)
    (h : content = "" ∨ content = "Empty conversation") :
    summarize_with_claude content run =
      ("Empty or unreadable conversation", false) := by
  unfold summarize_with_claude
  rcases h with h | h <;> subst h
  · simp
  · have hs : (pyStrip "Empty conversation" == "Empty conversation") = true := by
      decide
    simp [hs]

theorem summarize_skips_empty_witness :
    summarize_with_claude "Empty conversation" ProcOutcome.timeoutExpired =
      ("Empty or unreadable conversation", false) :=
  summarize_skips_empty "Empty conversation" ProcOutcome.timeoutExpired
    (Or.inr rfl)

/-! ## C4: summarizer fail-soft -/

/-- C4: for each failure mode of the external process — process not found,
timeout exceeded, nonzero exit status, and any other invocation error —
`summarize_with_claude` returns a non-empty placeholder string, and the four
placeholders are pairwise distinct.  No failure is raised to the caller: in
the embedding the adapter is a total function whose every branch returns a
string (each Python except-clause returns rather than re-raises). -/
theorem summarize_fail_soft (content stderr msg : String) (returncode : Int)
    (h1 : content ≠ "") (h2 : pyStrip content ≠ "Empty conversation")
    (hrc : returncode ≠ 0) :
    ((summarize_with_claude content ProcOutcome.fileNotFound).1 ≠ "" ∧
     (summarize_with_claude content ProcOutcome.timeoutExpired).1 ≠ "" ∧
     (summarize_with_claude content (ProcOutcome.completed returncode "" stderr)).1 ≠ "" ∧
     (summarize_with_claude content (ProcOutcome.otherError msg)).1 ≠ "") ∧
    ((summarize_with_claude content ProcOutcome.fileNotFound).1 ≠
        (summarize_with_claude content ProcOutcome.timeoutExpired).1 ∧
     (summarize_with_claude content ProcOutcome.fileNotFound).1 ≠
        (summarize_with_claude content (ProcOutcome.completed returncode "" stderr)).1 ∧
     (summarize_with_claude content ProcOutcome.fileNotFound).1 ≠
        (summarize_with_claude content (ProcOutcome.otherError msg)).1 ∧
     (summarize_with_claude content ProcOutcome.timeoutExpired).1 ≠
        (summarize_with_claude content (ProcOutcome.completed returncode "" stderr)).1 ∧
     (summarize_with_claude content ProcOutcome.timeoutExpired).1 ≠
        (summarize_with_claude content (ProcOutcome.otherError msg)).1 ∧
     (summarize_with_claude content (ProcOutcome.completed returncode "" stderr)).1 ≠
        (summarize_with_claude content (ProcOutcome.otherError msg)).1) := by
  have hg : (content == "" || pyStrip content == "Empty conversation") = false := by
    simp only [Bool.or_eq_false_iff, beq_eq_false_iff_ne]
    exact ⟨h1, h2⟩
  have enf : summarize_with_claude content ProcOutcome.fileNotFound =
      ("Claude CLI not found - install claude-cli", true) := by
    unfold summarize_with_claude
    simp [hg]
  have eto : summarize_with_claude content ProcOutcome.timeoutExpired =
      ("Summary generation timed out", true) := by
    unfold summarize_with_claude
    simp [hg]
  have ece : summarize_with_claude content (ProcOutcome.completed returncode "" stderr) =
      (pyCat "CLI error: " (pyTake stderr 50), true) := by
    unfold summarize_with_claude
    simp [hg, hrc]
  have eoe : summarize_with_claude content (ProcOutcome.otherError msg) =
      (pyCat "Error: " (pyTake msg 50), true) := by
    unfold summarize_with_claude
    simp [hg]
  rw [enf, eto, ece, eoe]
  have hce_pos : (0:Nat) < pyLen (pyCat "CLI error: " (pyTake stderr 50)) := by
    rw [pyLen_pyCat]
    have : pyLen "CLI error: " = 11 := rfl
    omega
  have hoe_pos : (0:Nat) < pyLen (pyCat "Error: " (pyTake msg 50)) := by
    rw [pyLen_pyCat]
    have : pyLen "Error: " = 7 := rfl
    omega
  refine ⟨⟨by decide, by decide, ne_empty_of_pyLen_pos hce_pos,
    ne_empty_of_pyLen_pos hoe_pos⟩, ?_, ?_, ?_, ?_, ?_, ?_⟩
  · decide
  · exact (pyCat_ne_of_take _ _ _ (by decide)).symm
  · exact (pyCat_ne_of_take _ _ _ (by decide)).symm
  · exact (pyCat_ne_of_take _ _ _ (by decide)).symm
  · exact (pyCat_ne_of_take _ _ _ (by decide)).symm
  · have hce : (pyCat "CLI error: " (pyTake stderr 50)).data.head? = some 'C' := rfl
    have hoe : (pyCat "Error: " (pyTake msg 50)).data.head? = some 'E' := rfl
    exact str_ne_of_head _ _ (by rw [hce, hoe]; decide)

theorem summarize_fail_soft_witness :
    ((summarize_with_claude "hi" ProcOutcome.fileNotFound).1 ≠ "" ∧
     (summarize_with_claude "hi" ProcOutcome.timeoutExpired).1 ≠ "" ∧
     (summarize_with_claude "hi" (ProcOutcome.completed 1 "" "boom")).1 ≠ "" ∧
     (summarize_with_claude "hi" (ProcOutcome.otherError "oops")).1 ≠ "") ∧
    ((summarize_with_claude "hi" ProcOutcome.fileNotFound).1 ≠
        (summarize_with_claude "hi" ProcOutcome.timeoutExpired).1 ∧
     (summarize_with_claude "hi" ProcOutcome.fileNotFound).1 ≠
        (summarize_with_claude "hi" (ProcOutcome.completed 1 "" "boom")).1 ∧
     (summarize_with_claude "hi" ProcOutcome.fileNotFound).1 ≠
        (summarize_with_claude "hi" (ProcOutcome.otherError "oops")).1 ∧
     (summarize_with_claude "hi" ProcOutcome.timeoutExpired).1 ≠
        (summarize_with_claude "hi" (ProcOutcome.completed 1 "" "boom")).1 ∧
     (summarize_with_claude "hi" ProcOutcome.timeoutExpired).1 ≠
        (summarize_with_claude "hi" (ProcOutcome.otherError "oops")).1 ∧
     (summarize_with_claude "hi" (ProcOutcome.completed 1 "" "boom")).1 ≠
        (summarize_with_claude "hi" (ProcOutcome.otherError "oops")).1) :=
  summarize_fail_soft "hi" "boom" "oops" 1 (by decide) (by decide) (by decide)

/-! ## C2: message count counts exactly the primary user records -/

theorem foldl_if_append (p : Record → Bool) :
    ∀ (l acc : List Record),
      l.foldl (fun a c => if p c then a ++ [c] else a) acc = acc ++ l.filter p
  | [], acc => by simp
  | c :: t, acc => by
    simp only [List.foldl_cons, List.filter_cons]
    by_cases h : p c <;>
      simp [h, foldl_if_append p t]

theorem user_messages_eq_filter (conversations : List Record) :
    user_messages conversations = conversations.filter claimPrimaryUser := by
  unfold user_messages
  have hext : conversations.foldl
      (fun user_msgs conv =>
        if conv.type == "user" && !conv.isSidechain then
          match conv.content with
          | Content.str content =>
            if !pyStartsWith (pyStrip content) toolResultMarker then
              user_msgs ++ [conv]
            else user_msgs
          | _ => user_msgs
        else user_msgs)
      [] =
      conversations.foldl (fun a c => if claimPrimaryUser c then a ++ [c] else a) [] := by
    apply List.foldl_ext
    intro a conv _
    cases hc : conv.content with
    | str s =>
      cases h1 : (conv.type == "user" && !conv.isSidechain) <;>
        cases h2 : pyStartsWith (pyStrip s) toolResultMarker <;>
          simp [claimPrimaryUser, hc, h1, h2]
    | items l =>
      cases h1 : (conv.type == "user" && !conv.isSidechain) <;>
        simp [claimPrimaryUser, hc, h1]
    | other =>
      cases h1 : (conv.type == "user" && !conv.isSidechain) <;>
        simp [claimPrimaryUser, hc, h1]
  rw [hext, foldl_if_append, List.nil_append]

/-- C2: `message_count` counts exactly the records whose kind is `user`,
whose `isSidechain` flag is false, and whose raw text content does not begin
with the serialized tool-result marker; it never counts a record with
`isSidechain = true` or one whose content begins with the marker. -/
theorem message_count_primary (conversations : List Record) :
    message_count conversations = conversations.countP claimPrimaryUser ∧
    (∀ conv ∈ conversations, conv.isSidechain = true →
      claimPrimaryUser conv = false) ∧
    (∀ conv s, conv.content = Content.str s →
      pyStartsWith (pyStrip s) toolResultMarker = true →
      claimPrimaryUser conv = false) := by
  refine ⟨?_, ?_, ?_⟩
  · rw [message_count, user_messages_eq_filter, List.countP_eq_length_filter]
  · intro conv _ hside
    simp [claimPrimaryUser, hside]
  · intro conv s hc hm
    simp [claimPrimaryUser, hc, hm]

theorem message_count_primary_witness :
    message_count [recUserW, recSideW, recToolW] =
      List.countP claimPrimaryUser [recUserW, recSideW, recToolW] ∧
    (∀ conv ∈ [recUserW, recSideW, recToolW], conv.isSidechain = true →
      claimPrimaryUser conv = false) ∧
    (∀ conv s, conv.content = Content.str s →
      pyStartsWith (pyStrip s) toolResultMarker = true →
      claimPrimaryUser conv = false) :=
  message_count_primary [recUserW, recSideW, recToolW]

/-! ## C5: embedded good summaries short-circuit the heuristic -/

theorem good_summaries_mem_ne_nil {conversations : List Record} {conv : Record}
    (hmem : conv ∈ conversations) (hty : conv.type = "summary")
    (hgood : is_good_summary conv.summary = true) :
    good_summaries conversations ≠ [] := by
  have hlen : 50 < pyLen conv.summary := by
    simp only [is_good_summary, Bool.and_eq_true, decide_eq_true_eq] at hgood
    exact hgood.1
  have hne : conv.summary ≠ "" := ne_empty_of_pyLen_pos (by omega)
  intro hnil
  have hin : conv.summary ∈ good_summaries conversations := by
    unfold good_summaries
    simp only [List.mem_filter, List.mem_map]
    refine ⟨⟨conv, ?_, rfl⟩, hgood⟩
    simp only [List.mem_filter, Bool.and_eq_true, beq_iff_eq, bne_iff_ne]
    exact ⟨hmem, hty, hne⟩
  rw [hnil] at hin
  simp at hin

theorem good_summaries_filter_type (conversations : List Record) :
    good_summaries (conversations.filter fun conv => conv.type == "summary") =
      good_summaries conversations := by
  have hf : ((conversations.filter fun conv => conv.type == "summary").filter
        fun conv => conv.type == "summary" && conv.summary != "") =
      conversations.filter fun conv => conv.type == "summary" && conv.summary != "" := by
    rw [List.filter_filter]
    apply List.filter_congr
    intro c _
    by_cases h : c.type = "summary" <;> simp [h]
  simp only [good_summaries, hf]

/-- C5: if the records contain at least one `summary`-kind record whose text
length exceeds 50 characters and contains no stoplist term, the excerpt
selector returns the concatenation of up to 3 such summaries joined by the
separator — and its output equals the output on the records with every
non-`summary` record removed, so no user, assistant, or tool record content is
consulted. -/
theorem summary_short_circuit (conversations : List Record)
    (h : ∃ conv ∈ conversations, conv.type = "summary" ∧
      is_good_summary conv.summary = true) :
    extract_content_for_summary conversations =
      pyJoin " | " ((good_summaries conversations).take 3) ∧
    extract_content_for_summary conversations =
      extract_content_for_summary
        (conversations.filter fun conv => conv.type == "summary") := by
  obtain ⟨conv, hmem, hty, hgood⟩ := h
  have hne := good_summaries_mem_ne_nil hmem hty hgood
  have hie : (good_summaries conversations).isEmpty = false := by
    cases hgs : good_summaries conversations with
    | nil => exact absurd hgs hne
    | cons a t => rfl
  have hfil := good_summaries_filter_type conversations
  constructor
  · simp only [extract_content_for_summary, hie, Bool.not_false, if_true]
  · simp only [extract_content_for_summary, hfil, hie, Bool.not_false, if_true]

theorem summary_short_circuit_witness :
    extract_content_for_summary [recSumW, recUserW] =
      pyJoin " | " ((good_summaries [recSumW, recUserW]).take 3) ∧
    extract_content_for_summary [recSumW, recUserW] =
      extract_content_for_summary
        ([recSumW, recUserW].filter fun conv => conv.type == "summary") :=
  summary_short_circuit [recSumW, recUserW]
    ⟨recSumW, by simp, rfl, by decide⟩

/-! ## C6: sampling of primary user records -/

theorem user_requests_mem :
    ∀ (priority : List Record) (acc : List String) (s : String),
      s ∈ priority.foldl
        (fun acc conv =>
          match conv.content with
          | Content.str content =>
            if pyStrip content != "" then
              if 10 < pyLen (pyStrip content) then acc ++ [pyTake (pyStrip content) 200]
              else acc
            else acc
          | _ => acc)
        acc →
      s ∈ acc ∨ ∃ conv ∈ priority, ∃ c, conv.content = Content.str c ∧
        s = pyTake (pyStrip c) 200
  | [], acc, s => by
    intro hs
    exact Or.inl hs
  | conv :: t, acc, s => by
    intro hs
    simp only [List.foldl_cons] at hs
    have ih := user_requests_mem t _ s hs
    rcases ih with hacc | ⟨conv', hm, c, hc, hs'⟩
    · cases hcc : conv.content with
      | str content =>
        rw [hcc] at hacc
        by_cases h1 : pyStrip content != ""
        · by_cases h2 : 10 < pyLen (pyStrip content)
          · simp only [h1, if_true, if_pos h2] at hacc
            rcases List.mem_append.mp hacc with h | h
            · exact Or.inl h
            · right
              refine ⟨conv, by simp, content, hcc, ?_⟩
              simpa using h
          · simp only [h1, if_true] at hacc
            rw [if_neg h2] at hacc
            exact Or.inl hacc
        · simp only [Bool.not_eq_true] at h1
          simp only [h1, Bool.false_eq_true, if_false] at hacc
          exact Or.inl hacc
      | items l =>
        rw [hcc] at hacc
        exact Or.inl hacc
      | other =>
        rw [hcc] at hacc
        exact Or.inl hacc
    · exact Or.inr ⟨conv', by simp [hm], c, hc, hs'⟩

theorem priority_user_messages_length_le (l : List Record) :
    (priority_user_messages l).length ≤ 6 := by
  unfold priority_user_messages
  by_cases h : l.length ≤ 6
  · simp [h]
  · rw [if_neg h]
    by_cases hm : 1 < l.length / 2 <;>
      simp [hm, List.length_take, List.length_drop] <;> omega

/-- C6: when no qualifying embedded summary exists, the excerpt selector
samples the primary user records — the very list whose length is
`message_count` (same exclusion rule): all of them when there are at most 6,
else the first 2, up to 2 around the midpoint index, and the last 2 (so at
most 6 in total); and each selected message contributes at most the first 200
characters of its stripped text. -/
theorem excerpt_sampling (conversations : List Record)
    (h : good_summaries conversations = []) :
    message_count conversations = (user_messages conversations).length ∧
    ((user_messages conversations).length ≤ 6 →
      priority_user_messages (user_messages conversations) =
        user_messages conversations) ∧
    (6 < (user_messages conversations).length →
      priority_user_messages (user_messages conversations) =
        (user_messages conversations).take 2 ++
          ((user_messages conversations).drop
            ((user_messages conversations).length / 2 - 1)).take 2 ++
          (user_messages conversations).drop
            ((user_messages conversations).length - 2)) ∧
    (priority_user_messages (user_messages conversations)).length ≤ 6 ∧
    (∀ s ∈ user_requests (priority_user_messages (user_messages conversations)),
      pyLen s ≤ 200 ∧
      ∃ conv ∈ priority_user_messages (user_messages conversations), ∃ c,
        conv.content = Content.str c ∧ s = pyTake (pyStrip c) 200) := by
  refine ⟨rfl, ?_, ?_, priority_user_messages_length_le _, ?_⟩
  · intro h6
    unfold priority_user_messages
    simp [h6]
  · intro h6
    have hn : ¬ (user_messages conversations).length ≤ 6 := by omega
    have hmid : 1 < (user_messages conversations).length / 2 := by omega
    simp [priority_user_messages, hn, hmid]
  · intro s hs
    have hm := user_requests_mem _ [] s hs
    rcases hm with hacc | ⟨conv, hmem, c, hc, hs'⟩
    · simp at hacc
    · refine ⟨?_, conv, hmem, c, hc, hs'⟩
      rw [hs']
      exact pyLen_pyTake_le _ _

theorem excerpt_sampling_witness :
    message_count convs7W = (user_messages convs7W).length ∧
    ((user_messages convs7W).length ≤ 6 →
      priority_user_messages (user_messages convs7W) = user_messages convs7W) ∧
    (6 < (user_messages convs7W).length →
      priority_user_messages (user_messages convs7W) =
        (user_messages convs7W).take 2 ++
          ((user_messages convs7W).drop
            ((user_messages convs7W).length / 2 - 1)).take 2 ++
          (user_messages convs7W).drop ((user_messages convs7W).length - 2)) ∧
    (priority_user_messages (user_messages convs7W)).length ≤ 6 ∧
    (∀ s ∈ user_requests (priority_user_messages (user_messages convs7W)),
      pyLen s ≤ 200 ∧
      ∃ conv ∈ priority_user_messages (user_messages convs7W), ∃ c,
        conv.content = Content.str c ∧ s = pyTake (pyStrip c) 200) :=
  excerpt_sampling convs7W (by decide)

/-! ## C3: excerpt non-emptiness and (corrected) boundedness -/

theorem user_requests_length_le :
    ∀ (p : List Record) (acc : List String),
      (p.foldl
        (fun acc conv =>
          match conv.content with
          | Content.str content =>
            if pyStrip content != "" then
              if 10 < pyLen (pyStrip content) then acc ++ [pyTake (pyStrip content) 200]
              else acc
            else acc
          | _ => acc)
        acc).length ≤ acc.length + p.length
  | [], acc => by simp
  | conv :: t, acc => by
    simp only [List.foldl_cons]
    cases hcc : conv.content with
    | str content =>
      by_cases h1 : pyStrip content != ""
      · by_cases h2 : 10 < pyLen (pyStrip content)
        · have ih := user_requests_length_le t (acc ++ [pyTake (pyStrip content) 200])
          simp only [List.length_append, List.length_cons, List.length_nil] at ih
          simp only [hcc, h1, if_true, if_pos h2, List.length_cons]
          omega
        · have ih := user_requests_length_le t acc
          simp only [hcc, h1, if_true, if_neg h2, List.length_cons]
          omega
      · have ih := user_requests_length_le t acc
        simp only [Bool.not_eq_true] at h1
        simp only [hcc, h1, Bool.false_eq_true, if_false, List.length_cons]
        omega
    | items l =>
      have ih := user_requests_length_le t acc
      simp only [hcc, List.length_cons]
      omega
    | other =>
      have ih := user_requests_length_le t acc
      simp only [hcc, List.length_cons]
      omega

theorem pyLen_sep : pyLen " | " = 3 := rfl

theorem user_context_le (conversations : List Record) :
    pyLen (pyJoin " | "
      (user_requests (priority_user_messages (user_messages conversations)))) ≤ 1218 := by
  have hlen6 : (user_requests (priority_user_messages (user_messages conversations))).length ≤ 6 := by
    have h1 := user_requests_length_le (priority_user_messages (user_messages conversations)) []
    have h2 := priority_user_messages_length_le (user_messages conversations)
    unfold user_requests
    simp only [List.length_nil] at h1
    omega
  have hall : ∀ s ∈ user_requests (priority_user_messages (user_messages conversations)),
      pyLen s ≤ 200 := by
    intro s hs
    have hm := user_requests_mem _ [] s hs
    rcases hm with hacc | ⟨conv, _, c, _, hs'⟩
    · simp at hacc
    · rw [hs']; exact pyLen_pyTake_le _ _
  have := pyLen_pyJoin_le " | " 200 _ hall
  rw [pyLen_sep] at this
  omega

/-- If a string is empty the guard at line 275 substitutes the sentinel, so
the returned value is never empty. -/
theorem sentinel_guard_nonempty (R : String) :
    (if R == "" then "Empty conversation" else R) ≠ "" := by
  by_cases h : (R == "") = true
  · rw [if_pos h]; decide
  · rw [if_neg h]
    exact fun he => h (by rw [he]; rfl)

theorem sentinel_guard_len (R : String) (hR : pyLen R ≤ MAX_CONTENT_LENGTH + 3) :
    pyLen (if R == "" then "Empty conversation" else R) ≤ MAX_CONTENT_LENGTH + 3 := by
  by_cases h : (R == "") = true
  · rw [if_pos h]; decide
  · rw [if_neg h]; exact hR

/-- The truncation at lines 272-273 bounds the result by the maximum plus the
3-character ellipsis. -/
theorem truncate_len_le (result : String) :
    pyLen (if MAX_CONTENT_LENGTH < pyLen result then
      pyCat (pyTake result MAX_CONTENT_LENGTH) "..." else result) ≤
      MAX_CONTENT_LENGTH + 3 := by
  by_cases h : MAX_CONTENT_LENGTH < pyLen result
  · rw [if_pos h, pyLen_pyCat, pyLen_pyTake]
    have h3 : pyLen "..." = 3 := rfl
    omega
  · rw [if_neg h]; omega

/-- C3 (amended): the excerpt selector is a pure function of the parsed
records (determinism is inherent — it is a function), its output is never the
empty string, and when the records contain no qualifying embedded summary its
length never exceeds `MAX_CONTENT_LENGTH + 3` = 20,003: the ellipsis appended
after truncation adds 3 characters beyond the configured maximum, and the
embedded-summary path returns the joined summaries without any truncation (see
the counterexample), so the original 20,000 bound fails on both counts. -/
theorem extract_nonempty_bounded (conversations : List Record) :
    extract_content_for_summary conversations ≠ "" ∧
    (good_summaries conversations = [] →
      pyLen (extract_content_for_summary conversations) ≤
        MAX_CONTENT_LENGTH + 3) := by
  cases hgs : good_summaries conversations with
  | cons g t =>
    have hgmem : g ∈ good_summaries conversations := by
      rw [hgs]; exact List.mem_cons_self g t
    have hg : is_good_summary g = true := by
      unfold good_summaries at hgmem
      exact (List.mem_filter.mp hgmem).2
    have hlen : 50 < pyLen g := by
      simp only [is_good_summary, Bool.and_eq_true, decide_eq_true_eq] at hg
      exact hg.1
    have hext : extract_content_for_summary conversations =
        pyJoin " | " ((g :: t).take 3) := by
      simp only [extract_content_for_summary, hgs]
      rfl
    constructor
    · rw [hext]
      have hge : pyLen g ≤ pyLen (pyJoin " | " ((g :: t).take 3)) := by
        rw [List.take_succ_cons]
        exact pyLen_pyJoin_cons_ge _ _ _
      exact ne_empty_of_pyLen_pos (by omega)
    · intro hnil
      exact absurd hnil (List.cons_ne_nil g t)
  | nil =>
    have hext : extract_content_for_summary conversations =
        (if 200 < pyLen (pyJoin " | " (user_requests (priority_user_messages (user_messages conversations)))) then pyJoin " | " (user_requests (priority_user_messages (user_messages conversations)))
         else
           (if (if MAX_CONTENT_LENGTH < pyLen (pyJoin " | " (if (((user_requests (priority_user_messages (user_messages conversations))).take 3).map (fun req => pyCat "User: " req)
            ++ ((assistant_scan (conversations.filter fun conv => !conv.isSidechain)).1.take 2).map (fun action => pyCat "Action: " action)
            ++ ((assistant_scan (conversations.filter fun conv => !conv.isSidechain)).2.take 2).map (fun tool => pyCat "Tool: " tool)).isEmpty then fallback_parts conversations else (((user_requests (priority_user_messages (user_messages conversations))).take 3).map (fun req => pyCat "User: " req)
            ++ ((assistant_scan (conversations.filter fun conv => !conv.isSidechain)).1.take 2).map (fun action => pyCat "Action: " action)
            ++ ((assistant_scan (conversations.filter fun conv => !conv.isSidechain)).2.take 2).map (fun tool => pyCat "Tool: " tool)))) then pyCat (pyTake (pyJoin " | " (if (((user_requests (priority_user_messages (user_messages conversations))).take 3).map (fun req => pyCat "User: " req)
            ++ ((assistant_scan (conversations.filter fun conv => !conv.isSidechain)).1.take 2).map (fun action => pyCat "Action: " action)
            ++ ((assistant_scan (conversations.filter fun conv => !conv.isSidechain)).2.take 2).map (fun tool => pyCat "Tool: " tool)).isEmpty then fallback_parts conversations else (((user_requests (priority_user_messages (user_messages conversations))).take 3).map (fun req => pyCat "User: " req)
            ++ ((assistant_scan (conversations.filter fun conv => !conv.isSidechain)).1.take 2).map (fun action => pyCat "Action: " action)
            ++ ((assistant_scan (conversations.filter fun conv => !conv.isSidechain)).2.take 2).map (fun tool => pyCat "Tool: " tool)))) MAX_CONTENT_LENGTH) "..." else (pyJoin " | " (if (((user_requests (priority_user_messages (user_messages conversations))).take 3).map (fun req => pyCat "User: " req)
            ++ ((assistant_scan (conversations.filter fun conv => !conv.isSidechain)).1.take 2).map (fun action => pyCat "Action: " action)
            ++ ((assistant_scan (conversations.filter fun conv => !conv.isSidechain)).2.take 2).map (fun tool => pyCat "Tool: " tool)).isEmpty then fallback_parts conversations else (((user_requests (priority_user_messages (user_messages conversations))).take 3).map (fun req => pyCat "User: " req)
            ++ ((assistant_scan (conversations.filter fun conv => !conv.isSidechain)).1.take 2).map (fun action => pyCat "Action: " action)
            ++ ((assistant_scan (conversations.filter fun conv => !conv.isSidechain)).2.take 2).map (fun tool => pyCat "Tool: " tool))))) == "" then "Empty conversation" else (if MAX_CONTENT_LENGTH < pyLen (pyJoin " | " (if (((user_requests (priority_user_messages (user_messages conversations))).take 3).map (fun req => pyCat "User: " req)
            ++ ((assistant_scan (conversations.filter fun conv => !conv.isSidechain)).1.take 2).map (fun action => pyCat "Action: " action)
            ++ ((assistant_scan (conversations.filter fun conv => !conv.isSidechain)).2.take 2).map (fun tool => pyCat "Tool: " tool)).isEmpty then fallback_parts conversations else (((user_requests (priority_user_messages (user_messages conversations))).take 3).map (fun req => pyCat "User: " req)
            ++ ((assistant_scan (conversations.filter fun conv => !conv.isSidechain)).1.take 2).map (fun action => pyCat "Action: " action)
            ++ ((assistant_scan (conversations.filter fun conv => !conv.isSidechain)).2.take 2).map (fun tool => pyCat "Tool: " tool)))) then pyCat (pyTake (pyJoin " | " (if (((user_requests (priority_user_messages (user_messages conversations))).take 3).map (fun req => pyCat "User: " req)
            ++ ((assistant_scan (conversations.filter fun conv => !conv.isSidechain)).1.take 2).map (fun action => pyCat "Action: " action)
            ++ ((assistant_scan (conversations.filter fun conv => !conv.isSidechain)).2.take 2).map (fun tool => pyCat "Tool: " tool)).isEmpty then fallback_parts conversations else (((user_requests (priority_user_messages (user_messages conversations))).take 3).map (fun req => pyCat "User: " req)
            ++ ((assistant_scan (conversations.filter fun conv => !conv.isSidechain)).1.take 2).map (fun action => pyCat "Action: " action)
            ++ ((assistant_scan (conversations.filter fun conv => !conv.isSidechain)).2.take 2).map (fun tool => pyCat "Tool: " tool)))) MAX_CONTENT_LENGTH) "..." else (pyJoin " | " (if (((user_requests (priority_user_messages (user_messages conversations))).take 3).map (fun req => pyCat "User: " req)
            ++ ((assistant_scan (conversations.filter fun conv => !conv.isSidechain)).1.take 2).map (fun action => pyCat "Action: " action)
            ++ ((assistant_scan (conversations.filter fun conv => !conv.isSidechain)).2.take 2).map (fun tool => pyCat "Tool: " tool)).isEmpty then fallback_parts conversations else (((user_requests (priority_user_messages (user_messages conversations))).take 3).map (fun req => pyCat "User: " req)
            ++ ((assistant_scan (conversations.filter fun conv => !conv.isSidechain)).1.take 2).map (fun action => pyCat "Action: " action)
            ++ ((assistant_scan (conversations.filter fun conv => !conv.isSidechain)).2.take 2).map (fun tool => pyCat "Tool: " tool))))))) := by
      simp only [extract_content_for_summary, hgs]
      rfl
    rw [hext]
    by_cases hctx : 200 < pyLen (pyJoin " | " (user_requests (priority_user_messages (user_messages conversations))))
    · rw [if_pos hctx]
      refine ⟨ne_empty_of_pyLen_pos (by omega), fun _ => ?_⟩
      have := user_context_le conversations
      unfold MAX_CONTENT_LENGTH
      omega
    · rw [if_neg hctx]
      exact ⟨sentinel_guard_nonempty _, fun _ => sentinel_guard_len _ (truncate_len_le _)⟩

theorem data_mk (l : List Char) : (String.mk l).data = l := rfl

theorem pyLen_bigSummaryS : pyLen bigSummaryS = 20001 := by
  unfold pyLen bigSummaryS
  rw [data_mk, List.length_replicate]

theorem pyLower_bigSummaryS : pyLower bigSummaryS = bigSummaryS := by
  simp only [pyLower, bigSummaryS, data_mk, List.map_replicate]
  rw [show Char.toLower 'x' = 'x' from by decide]

theorem is_good_bigSummaryS : is_good_summary bigSummaryS = true := by
  unfold is_good_summary
  rw [pyLower_bigSummaryS]
  have hany : (genericTerms.any fun g => pyIn g bigSummaryS) = false := by
    simp only [genericTerms, List.any_cons, List.any_nil, Bool.or_eq_false_iff]
    refine ⟨?_, ?_, ?_, ?_, ?_, trivial⟩
    · exact listContainsSub_replicate_eq_false (a := 'c') _ _ (by decide) (by decide)
    · exact listContainsSub_replicate_eq_false (a := 'p') _ _ (by decide) (by decide)
    · exact listContainsSub_replicate_eq_false (a := 'p') _ _ (by decide) (by decide)
    · exact listContainsSub_replicate_eq_false (a := 's') _ _ (by decide) (by decide)
    · exact listContainsSub_replicate_eq_false (a := 'c') _ _ (by decide) (by decide)
  rw [hany]
  simp [pyLen_bigSummaryS]

theorem good_summaries_big : good_summaries [bigSummaryRec] = [bigSummaryS] := by
  have hne : (bigSummaryS != "") = true :=
    bne_iff_ne.mpr (ne_empty_of_pyLen_pos (by rw [pyLen_bigSummaryS]; omega))
  simp [good_summaries, bigSummaryRec, hne, is_good_bigSummaryS]

/-- C3 counterexample: on a single embedded summary record whose text has
20,001 characters the excerpt selector returns that text unchanged, so its
output exceeds the claimed 20,000-character maximum. -/
theorem extract_exceeds_max :
    MAX_CONTENT_LENGTH < pyLen (extract_content_for_summary [bigSummaryRec]) := by
  have hext : extract_content_for_summary [bigSummaryRec] = bigSummaryS := by
    simp only [extract_content_for_summary, good_summaries_big]
    rfl
  rw [hext, pyLen_bigSummaryS]
  decide

theorem extract_nonempty_bounded_witness :
    extract_content_for_summary [] ≠ "" ∧
    pyLen (extract_content_for_summary []) ≤ MAX_CONTENT_LENGTH + 3 :=
  ⟨(extract_nonempty_bounded []).1, (extract_nonempty_bounded []).2 rfl⟩

/-! ## C7: path encoding round-trip (corrected) -/

theorem mk_data (s : String) : String.mk s.data = s := rfl

theorem map_mk_data (ls : List String) :
    ls.map (String.mk ∘ String.data) = ls := by
  induction ls with
  | nil => rfl
  | cons a t ih => simp only [List.map_cons, Function.comp_apply, mk_data, ih]

theorem pyJoin_data (sep : String) :
    ∀ ls : List String,
      (pyJoin sep ls).data = joinChars sep.data (ls.map String.data)
  | [] => rfl
  | [x] => rfl
  | x :: y :: ls => by
    simp only [pyJoin, joinChars, List.map_cons, data_pyCat,
      pyJoin_data sep (y :: ls)]

theorem splitChar_ne_nil (c : Char) : ∀ l, splitChar c l ≠ []
  | [] => by simp [splitChar]
  | x :: xs => by
    simp only [splitChar]
    by_cases hxc : x = c <;> simp [hxc]

theorem splitChar_no_sep (c : Char) :
    ∀ l, (∀ x ∈ l, x ≠ c) → splitChar c l = [l]
  | [], _ => rfl
  | x :: xs, h => by
    simp only [splitChar,
      splitChar_no_sep c xs (fun y hy => h y (List.mem_cons_of_mem x hy))]
    rw [if_neg (h x (List.mem_cons_self x xs))]
    rfl

theorem splitChar_append_sep (c : Char) :
    ∀ a b, (∀ x ∈ a, x ≠ c) →
      splitChar c (a ++ c :: b) = a :: splitChar c b
  | [], b, _ => by
    have hnb : ([] : List Char) ++ c :: b = c :: b := rfl
    rw [hnb]
    simp [splitChar]
  | x :: a, b, h => by
    have hx : x ≠ c := h x (List.mem_cons_self x a)
    have ih := splitChar_append_sep c a b
      (fun y hy => h y (List.mem_cons_of_mem x hy))
    have : (x :: a) ++ c :: b = x :: (a ++ c :: b) := rfl
    rw [this]
    simp only [splitChar, ih]
    rw [if_neg hx]
    rfl

theorem splitChar_joinChars (c : Char) :
    ∀ ls : List (List Char), ls ≠ [] →
      (∀ l ∈ ls, ∀ x ∈ l, x ≠ c) →
      splitChar c (joinChars [c] ls) = ls
  | [], h, _ => absurd rfl h
  | [l], _, hall => by
    simp only [joinChars]
    exact splitChar_no_sep c l (hall l (by simp))
  | l :: l2 :: ls, _, hall => by
    simp only [joinChars]
    have hcons : [c] ++ joinChars [c] (l2 :: ls) = c :: joinChars [c] (l2 :: ls) := rfl
    rw [hcons, splitChar_append_sep c l _ (hall l (by simp)),
      splitChar_joinChars c (l2 :: ls) (by simp)
        (fun m hm => hall m (List.mem_cons_of_mem l hm))]

theorem map_repl_no_slash :
    ∀ l : List Char, '/' ∉ l →
      l.map (fun ch => if ch = '/' then '-' else ch) = l
  | [], _ => rfl
  | x :: xs, h => by
    simp only [List.map_cons]
    rw [if_neg (fun hx => h (List.mem_cons.mpr (Or.inl hx.symm))),
      map_repl_no_slash xs (fun hm => h (List.mem_cons_of_mem x hm))]

theorem map_repl_joinChars :
    ∀ ls : List (List Char), (∀ l ∈ ls, '/' ∉ l) →
      (joinChars ['/'] ls).map (fun ch => if ch = '/' then '-' else ch) =
        joinChars ['-'] ls
  | [], _ => rfl
  | [l], h => by
    simp only [joinChars]
    exact map_repl_no_slash l (h l (by simp))
  | l :: l2 :: ls, h => by
    simp only [joinChars, List.map_append]
    rw [map_repl_no_slash l (h l (by simp)),
      map_repl_joinChars (l2 :: ls) (fun m hm => h m (List.mem_cons_of_mem l hm))]
    rfl

/-- C7 counterexample: the absolute path `/home/alice` is built from ASCII
segments without the joining character, yet decoding its encoding yields
`-home-alice`, not the original path — the decoder only reconstructs names
that begin with `-Users-`. -/
theorem decode_encode_not_id :
    decode_project_path (encode_project_path "/home/alice") ≠ "/home/alice" := by
  decide

/-- C7 (amended): the round-trip `decode(encode(path)) = path` holds exactly
for the paths the decoder is written for — absolute paths of the form
`/Users/<segment>/...` with at least one segment after `Users`, each segment
free of the joining character `-` (and of `/`, as path segments are); any
other absolute path is decoded to its encoded name unchanged (see the
counterexample). -/
theorem decode_encode_users (rest : List String) (hne : rest ≠ [])
    (hdash : ∀ seg ∈ rest, '-' ∉ seg.data)
    (hslash : ∀ seg ∈ rest, '/' ∉ seg.data) :
    decode_project_path (encode_project_path (pathOfSegments ("Users" :: rest))) =
      pathOfSegments ("Users" :: rest) := by
  have hpd : (pathOfSegments ("Users" :: rest)).data =
      '/' :: joinChars ['/'] (("Users" :: rest).map String.data) := by
    show ("/".data ++ (pyJoin "/" ("Users" :: rest)).data) = _
    rw [pyJoin_data]
    rfl
  have hnoslash : ∀ l ∈ ("Users" :: rest).map String.data, '/' ∉ l := by
    intro l hl
    rcases List.mem_map.mp hl with ⟨seg, hseg, rfl⟩
    rcases List.mem_cons.mp hseg with h | h
    · subst h; decide
    · exact hslash seg h
  have hE : (encode_project_path (pathOfSegments ("Users" :: rest))).data =
      '-' :: joinChars ['-'] (("Users" :: rest).map String.data) := by
    show (pathOfSegments ("Users" :: rest)).data.map
        (fun ch => if ch = '/' then '-' else ch) = _
    rw [hpd, List.map_cons, map_repl_joinChars _ hnoslash]
    rfl
  cases rest with
  | nil => exact absurd rfl hne
  | cons r rs =>
    have hjoin : joinChars ['-'] (("Users" :: r :: rs).map String.data) =
        "Users".data ++ '-' :: joinChars ['-'] ((r :: rs).map String.data) := rfl
    have hstart :
        pyStartsWith (encode_project_path (pathOfSegments ("Users" :: r :: rs)))
          "-Users-" = true := by
      unfold pyStartsWith
      rw [hE, hjoin]
      apply List.isPrefixOf_iff_prefix.mpr
      exact ⟨joinChars ['-'] ((r :: rs).map String.data), rfl⟩
    have hnosep : ∀ l ∈ ("Users" :: r :: rs).map String.data, ∀ x ∈ l, x ≠ '-' := by
      intro l hl x hx
      rcases List.mem_map.mp hl with ⟨seg, hseg, rfl⟩
      intro hc
      subst hc
      rcases List.mem_cons.mp hseg with h | h
      · rw [h] at hx
        revert hx
        decide
      · exact hdash seg h hx
    have hsplit :
        pySplit '-' (encode_project_path (pathOfSegments ("Users" :: r :: rs))) =
          "" :: "Users" :: r :: rs := by
      unfold pySplit
      rw [hE]
      have h1 : splitChar '-'
          ('-' :: joinChars ['-'] (("Users" :: r :: rs).map String.data)) =
          [] :: splitChar '-' (joinChars ['-'] (("Users" :: r :: rs).map String.data)) := by
        have hnb : ('-' :: joinChars ['-'] (("Users" :: r :: rs).map String.data)) =
            [] ++ '-' :: joinChars ['-'] (("Users" :: r :: rs).map String.data) := rfl
        rw [hnb, splitChar_append_sep '-' [] _ (by simp)]
      rw [h1, splitChar_joinChars '-' _ (by simp) hnosep]
      simp only [List.map_cons, List.map_map]
      rw [map_mk_data rs]
    unfold decode_project_path
    rw [if_pos (show pyStartsWith _ "-Users-" = true from hstart)]
    rw [hsplit]
    rfl

theorem decode_encode_users_witness :
    decode_project_path
        (encode_project_path (pathOfSegments ["Users", "alice", "proj"])) =
      pathOfSegments ["Users", "alice", "proj"] :=
  decode_encode_users ["alice", "proj"] (by decide) (by decide) (by decide)

/-! ## C9: recache is selective -/

theorem lookupKey_setKey_self :
    ∀ (cache : List (String × CacheEntry)) (k : String) (v : CacheEntry),
      lookupKey (setKey cache k v) k = some v
  | [], k, v => by simp [setKey, lookupKey]
  | (k', v') :: rest, k, v => by
    simp only [setKey]
    by_cases h : k' = k
    · rw [if_pos h]
      simp [lookupKey]
    · rw [if_neg h]
      simp only [lookupKey, if_neg h]
      exact lookupKey_setKey_self rest k v

theorem lookupKey_setKey_other :
    ∀ (cache : List (String × CacheEntry)) (k k2 : String) (v : CacheEntry),
      k ≠ k2 →
      lookupKey (setKey cache k v) k2 = lookupKey cache k2
  | [], k, k2, v, h => by simp [setKey, lookupKey, h]
  | (k', v') :: rest, k, k2, v, h => by
    simp only [setKey]
    by_cases hk : k' = k
    · rw [if_pos hk]
      simp only [lookupKey, if_neg h]
      rw [if_neg (hk ▸ h)]
    · rw [if_neg hk]
      simp only [lookupKey]
      by_cases hk2 : k' = k2
      · rw [if_pos hk2, if_pos hk2]
      · rw [if_neg hk2, if_neg hk2]
        exact lookupKey_setKey_other rest k k2 v h

theorem load_conversations_file_path (s : Session) :
    (load_conversations s).file_path = s.file_path := rfl

theorem process_recache_eq (summarizer : String → String)
    (cache : List (String × CacheEntry)) (s : Session) :
    process_recache summarizer cache s =
      setKey cache s.file_path (fresh_entry summarizer s) := rfl

theorem foldl_recache_frame (summarizer : String → String) :
    ∀ (l : List Session) (cache : List (String × CacheEntry)) (k : String),
      (∀ s ∈ l, s.file_path ≠ k) →
      lookupKey (l.foldl (process_recache summarizer) cache) k = lookupKey cache k
  | [], _, _, _ => rfl
  | s :: t, cache, k, h => by
    simp only [List.foldl_cons]
    rw [foldl_recache_frame summarizer t _ k
      (fun s' hs' => h s' (List.mem_cons_of_mem s hs'))]
    rw [process_recache_eq]
    exact lookupKey_setKey_other cache s.file_path k _ (h s (List.mem_cons_self s t))

theorem foldl_recache_write (summarizer : String → String) :
    ∀ (l : List Session) (cache : List (String × CacheEntry)) (k : String)
      (e : CacheEntry),
      (∀ s ∈ l, s.file_path = k → fresh_entry summarizer s = e) →
      (∃ s ∈ l, s.file_path = k) →
      lookupKey (l.foldl (process_recache summarizer) cache) k = some e
  | [], _, _, _, _, hex => by simp at hex
  | s :: t, cache, k, e, hagree, hex => by
    simp only [List.foldl_cons]
    by_cases ht : ∃ s' ∈ t, s'.file_path = k
    · exact foldl_recache_write summarizer t _ k e
        (fun s' hs' => hagree s' (List.mem_cons_of_mem s hs')) ht
    · have hs : s.file_path = k := by
        rcases hex with ⟨s', hs', hpath⟩
        rcases List.mem_cons.mp hs' with h | h
        · subst h; exact hpath
        · exact absurd ⟨s', h, hpath⟩ ht
      rw [foldl_recache_frame summarizer t _ k (fun s' hs' hk => ht ⟨s', hs', hk⟩)]
      rw [process_recache_eq]
      subst hs
      rw [lookupKey_setKey_self, hagree s (List.mem_cons_self s t) rfl]

theorem mem_of_getElem_opt :
    ∀ (l : List Session) (i : Nat) (s : Session), l[i]? = some s → s ∈ l
  | [], i, s => by intro h; simp at h
  | a :: t, 0, s => by
    intro h
    simp only [List.getElem?_cons_zero, Option.some.injEq] at h
    rcases h with rfl
    exact List.mem_cons_self a t
  | a :: t, i + 1, s => by
    intro h
    simp only [List.getElem?_cons_succ] at h
    exact List.mem_cons_of_mem a (mem_of_getElem_opt t i s h)

theorem mem_sessions_to_recache {sessions : List Session} {choices : List Nat}
    {s : Session} :
    s ∈ sessions_to_recache sessions choices ↔
      ∃ x ∈ choices, sessions[x - 1]? = some s := by
  unfold sessions_to_recache
  rw [List.mem_filterMap]
  constructor
  · rintro ⟨i, hi, hget⟩
    rcases List.mem_map.mp hi with ⟨x, hx, rfl⟩
    exact ⟨x, hx, hget⟩
  · rintro ⟨x, hx, hget⟩
    exact ⟨x - 1, List.mem_map.mpr ⟨x, hx, rfl⟩, hget⟩

/-- C9: recache is selective — for a list of 1-based indices, every cache key
not belonging to a selected session keeps its prior value, and the key of each
selected session is overwritten with the freshly re-parsed, re-summarized
entry `fresh_entry`, which is built from the session's file contents and the
summarizer alone (no cache lookup is consulted: `fresh_entry` does not take
the cache as an argument). -/
theorem recache_selective (summarizer : String → String)
    (sessions : List Session) (choices : List Nat)
    (cache : List (String × CacheEntry))
    (hnodup : (sessions.map (fun s => s.file_path)).Nodup) :
    (∀ k : String,
      (∀ x ∈ choices, ∀ s : Session, sessions[x - 1]? = some s →
        s.file_path ≠ k) →
      lookupKey (recache_sessions summarizer sessions choices cache) k =
        lookupKey cache k) ∧
    (∀ x ∈ choices, ∀ s : Session, sessions[x - 1]? = some s →
      lookupKey (recache_sessions summarizer sessions choices cache)
          s.file_path = some (fresh_entry summarizer s)) := by
  constructor
  · intro k hk
    unfold recache_sessions
    apply foldl_recache_frame
    intro s' hs'
    rcases mem_sessions_to_recache.mp hs' with ⟨x, hx, hget⟩
    exact hk x hx s' hget
  · intro x hx s hget
    unfold recache_sessions
    apply foldl_recache_write
    · intro s' hs' hpath
      rcases mem_sessions_to_recache.mp hs' with ⟨x', hx', hget'⟩
      have hmem' : s' ∈ sessions := mem_of_getElem_opt sessions (x' - 1) s' hget'
      have hmem : s ∈ sessions := mem_of_getElem_opt sessions (x - 1) s hget
      have heq : s' = s := List.inj_on_of_nodup_map hnodup hmem' hmem hpath
      rw [heq]
    · exact ⟨s, mem_sessions_to_recache.mpr ⟨x, hx, hget⟩, rfl⟩

theorem recache_selective_witness :
    lookupKey (recache_sessions idSummarizer [sessionR1, sessionR2] [1] cacheR)
        "p2" = lookupKey cacheR "p2" ∧
    lookupKey (recache_sessions idSummarizer [sessionR1, sessionR2] [1] cacheR)
        sessionR1.file_path = some (fresh_entry idSummarizer sessionR1) := by
  constructor
  · apply (recache_selective idSummarizer [sessionR1, sessionR2] [1] cacheR
      (by decide)).1
    intro x hx s hget
    have hx1 : x = 1 := by simpa using hx
    subst hx1
    simp only [show (1 : Nat) - 1 = 0 from rfl, List.getElem?_cons_zero,
      Option.some.injEq] at hget
    rcases hget with rfl
    decide
  · exact (recache_selective idSummarizer [sessionR1, sessionR2] [1] cacheR
      (by decide)).2 1 (by simp) sessionR1 rfl
